import Mathlib

/-!
Verification of the negotiation service in `src/index.py`.

The development shallowly embeds the Python program: Python values that flow
through the JSON handling are modelled by `PyVal`, the library calls
`json.loads` and `ast.literal_eval` are modelled by executable parsers over
`List Char`, and the two Flask handlers `negotiate` and `get_negotiation`
become pure functions from a store, a fresh identifier and an oracle outcome
to a response and an updated store.
-/

/-- The backtick character, written by code point to keep source plain. -/
def tick : Char := Char.ofNat 96

/-- The opening curly brace character. -/
def lbrace : Char := Char.ofNat 123

/-- The closing curly brace character. -/
def rbrace : Char := Char.ofNat 125

/-- The single quote character as a string, used to build Python error texts. -/
def sQuote : String := String.singleton (Char.ofNat 39)

/-- The single quote character. -/
def sQuoteC : Char := Char.ofNat 39

/-- Value of a hexadecimal digit, or `none`. -/
def hexVal (c : Char) : Option Nat :=
  if c.isDigit then some (c.toNat - 48)
  else if 97 ≤ c.toNat ∧ c.toNat ≤ 102 then some (c.toNat - 87)
  else if 65 ≤ c.toNat ∧ c.toNat ≤ 70 then some (c.toNat - 55)
  else none

/-- Model of the Python values produced by `json.loads`, `ast.literal_eval`
and the handler bodies.  Numeric literals with a fractional or exponent part
keep their lexeme: no claim inspects a float value.  Python tuples and sets
are modelled as lists, since the program only ever tests membership. -/
inductive PyVal where
  | str (s : String)
  | int (n : Int)
  | float (lexeme : String)
  | bool (b : Bool)
  | null
  | list (xs : List PyVal)
  | dict (kvs : List (String × PyVal))

/-- Lookup in a Python dict modelled as an association list. -/
def dictLookup : List (String × PyVal) → String → Option PyVal
  | [], _ => none
  | (k, v) :: rest, key => if k = key then some v else dictLookup rest key

/-- Insertion in a Python dict: overwriting a key keeps its position,
a new key is appended, as CPython dicts do. -/
def dictInsert : List (String × PyVal) → String → PyVal → List (String × PyVal)
  | [], key, v => [(key, v)]
  | (k, w) :: rest, key, v =>
      if k = key then (k, v) :: rest else (k, w) :: dictInsert rest key v

/-- Field access on a `PyVal` that is a dict; `none` otherwise.
Used only to state theorems about response bodies. -/
def dictGet (v : PyVal) (key : String) : Option PyVal :=
  match v with
  | .dict kvs => dictLookup kvs key
  | _ => none

/-- JSON whitespace as skipped by `json.loads`. -/
def skipWs : List Char → List Char
  | [] => []
  | c :: rest =>
      if c = ' ' ∨ c = Char.ofNat 9 ∨ c = Char.ofNat 10 ∨ c = Char.ofNat 13
      then skipWs rest else c :: rest

/-- Body of a JSON string after the opening quote: accumulates characters up
to the closing quote, decoding escapes, rejecting raw control characters as
the strict `json.loads` does. -/
def goStr : List Char → List Char → Option (List Char × List Char)
  | [], _ => none
  | c :: rest, acc =>
      if c = Char.ofNat 34 then some (acc.reverse, rest)
      else if c = Char.ofNat 92 then
        match rest with
        | [] => none
        | e :: rest2 =>
            if e = Char.ofNat 34 then goStr rest2 (Char.ofNat 34 :: acc)
            else if e = Char.ofNat 92 then goStr rest2 (Char.ofNat 92 :: acc)
            else if e = '/' then goStr rest2 ('/' :: acc)
            else if e = 'b' then goStr rest2 (Char.ofNat 8 :: acc)
            else if e = 'f' then goStr rest2 (Char.ofNat 12 :: acc)
            else if e = 'n' then goStr rest2 (Char.ofNat 10 :: acc)
            else if e = 'r' then goStr rest2 (Char.ofNat 13 :: acc)
            else if e = 't' then goStr rest2 (Char.ofNat 9 :: acc)
            else if e = 'u' then
              match rest2 with
              | h1 :: h2 :: h3 :: h4 :: rest3 =>
                  match hexVal h1, hexVal h2, hexVal h3, hexVal h4 with
                  | some v1, some v2, some v3, some v4 =>
                      goStr rest3 (Char.ofNat (4096 * v1 + 256 * v2 + 16 * v3 + v4) :: acc)
                  | _, _, _, _ => none
              | _ => none
            else none
      else if c.toNat < 32 then none
      else goStr rest (c :: acc)

/-- A JSON string literal starting after the opening quote. -/
def parseStringBody (cs : List Char) : Option (String × List Char) :=
  match goStr cs [] with
  | some (content, rest) => some (String.mk content, rest)
  | none => none

/-- Longest digit run at the head of the input. -/
def takeDigits : List Char → (List Char × List Char)
  | [] => ([], [])
  | c :: rest =>
      if c.isDigit then
        let p := takeDigits rest
        (c :: p.1, p.2)
      else ([], c :: rest)

/-- Value of a digit run. -/
def digitsToNat (ds : List Char) : Nat :=
  ds.foldl (fun a c => a * 10 + (c.toNat - 48)) 0

/-- Exponent part of a JSON number, if present. -/
def parseExpPart : List Char → Option (List Char × List Char)
  | c :: rest =>
      if c = 'e' ∨ c = 'E' then
        let (sgn, r1) :=
          match rest with
          | s2 :: r => if s2 = '+' ∨ s2 = '-' then ([s2], r) else (([] : List Char), rest)
          | [] => ([], rest)
        let (ds, r2) := takeDigits r1
        if ds = [] then none else some (c :: (sgn ++ ds), r2)
      else none
  | [] => none

/-- A JSON number, as `json.loads` accepts it: optional minus sign, an
integer part without leading zeros, optional fraction and exponent.  An
integer literal becomes `PyVal.int`; otherwise the lexeme is kept. -/
def parseNum (cs : List Char) : Option (PyVal × List Char) :=
  let (neg, cs1) :=
    match cs with
    | c :: r => if c = '-' then (true, r) else (false, cs)
    | [] => (false, cs)
  let (ip, r1) := takeDigits cs1
  if ip = [] then none
  else if ip.head? = some '0' ∧ 1 < ip.length then none
  else
    match r1 with
    | '.' :: r2 =>
        let (fp, r3) := takeDigits r2
        if fp = [] then none
        else
          match parseExpPart r3 with
          | some (ep, r4) =>
              some (.float (String.mk ((if neg then ['-'] else []) ++ ip ++ '.' :: fp ++ ep)), r4)
          | none =>
              match r3 with
              | c :: _ =>
                  if c = 'e' ∨ c = 'E' then none
                  else some (.float (String.mk ((if neg then ['-'] else []) ++ ip ++ '.' :: fp)), r3)
              | [] => some (.float (String.mk ((if neg then ['-'] else []) ++ ip ++ '.' :: fp)), r3)
    | _ =>
        match parseExpPart r1 with
        | some (ep, r4) =>
            some (.float (String.mk ((if neg then ['-'] else []) ++ ip ++ ep)), r4)
        | none =>
            match r1 with
            | c :: _ =>
                if c = 'e' ∨ c = 'E' then none
                else some (.int (if neg then -(digitsToNat ip : Int) else (digitsToNat ip : Int)), r1)
            | [] => some (.int (if neg then -(digitsToNat ip : Int) else (digitsToNat ip : Int)), r1)

/-- Parsing mode for the JSON value parser: a value, the members of an
object, or the elements of an array. -/
inductive PMode where
  | val
  | members (acc : List (String × PyVal))
  | elems (acc : List PyVal)

/-- Model of the recursive part of `json.loads`, fuelled to stay a plain
structural recursion.  `parseJsonList` supplies sufficient fuel. -/
def parseStep : Nat → PMode → List Char → Option (PyVal × List Char)
  | 0, _, _ => none
  | Nat.succ f, PMode.val, cs =>
      match skipWs cs with
      | [] => none
      | c :: rest =>
          if c = lbrace then
            match skipWs rest with
            | c2 :: rest2 =>
                if c2 = rbrace then some (.dict [], rest2)
                else parseStep f (PMode.members []) (c2 :: rest2)
            | [] => none
          else if c = '[' then
            match skipWs rest with
            | c2 :: rest2 =>
                if c2 = ']' then some (.list [], rest2)
                else parseStep f (PMode.elems []) (c2 :: rest2)
            | [] => none
          else if c = Char.ofNat 34 then
            match parseStringBody rest with
            | some (s, r) => some (.str s, r)
            | none => none
          else if c = 't' then
            match rest with
            | 'r' :: 'u' :: 'e' :: r => some (.bool true, r)
            | _ => none
          else if c = 'f' then
            match rest with
            | 'a' :: 'l' :: 's' :: 'e' :: r => some (.bool false, r)
            | _ => none
          else if c = 'n' then
            match rest with
            | 'u' :: 'l' :: 'l' :: r => some (.null, r)
            | _ => none
          else if c = '-' ∨ c.isDigit then parseNum (c :: rest)
          else none
  | Nat.succ f, PMode.members acc, cs =>
      match cs with
      | c :: rest =>
          if c = Char.ofNat 34 then
            match parseStringBody rest with
            | some (k, r1) =>
                match skipWs r1 with
                | ':' :: r2 =>
                    match parseStep f PMode.val r2 with
                    | some (v, r3) =>
                        let acc2 := dictInsert acc k v
                        match skipWs r3 with
                        | ',' :: r4 => parseStep f (PMode.members acc2) (skipWs r4)
                        | c5 :: r5 =>
                            if c5 = rbrace then some (.dict acc2, r5) else none
                        | [] => none
                    | none => none
                | _ => none
            | none => none
          else none
      | [] => none
  | Nat.succ f, PMode.elems acc, cs =>
      match parseStep f PMode.val cs with
      | some (v, r1) =>
          match skipWs r1 with
          | ',' :: r2 => parseStep f (PMode.elems (acc ++ [v])) r2
          | ']' :: r2 => some (.list (acc ++ [v]), r2)
          | _ => none
      | none => none

/-- Model of `json.loads` on a character list: parse one value, then require
only trailing whitespace, as the strict decoder raises on extra data. -/
def parseJsonList (cs : List Char) : Option PyVal :=
  match parseStep (cs.length + 1) PMode.val cs with
  | some (v, r) => if skipWs r = [] then some v else none
  | none => none

/-- Model of `json.loads` on a string. -/
def parseJsonStr (s : String) : Option PyVal :=
  parseJsonList s.toList

/-- Model of `re.sub(r"```(?:json)?", "", text)`: scanning left to right,
a run of three backticks is deleted, together with a directly following
`json`; other characters are kept. -/
def stripGo : Nat → List Char → List Char
  | _, [] => []
  | Nat.succ k, _ :: rest => stripGo k rest
  | 0, c :: rest =>
      if c = tick ∧ rest.take 2 = [tick, tick] then
        if (rest.drop 2).take 4 = ['j', 's', 'o', 'n'] then stripGo 6 rest
        else stripGo 2 rest
      else c :: stripGo 0 rest

/-- See `stripGo`: a skip counter deletes the remainder of a recognised
fence marker. -/
def stripTicksAux (cs : List Char) : List Char := stripGo 0 cs

/-- Whitespace as removed by the Python `str.strip` default. -/
def pyWs (c : Char) : Bool :=
  c = ' ' ∨ c = Char.ofNat 9 ∨ c = Char.ofNat 10 ∨ c = Char.ofNat 13 ∨
  c = Char.ofNat 11 ∨ c = Char.ofNat 12

/-- Model of `str.strip()`. -/
def pyStrip (cs : List Char) : List Char :=
  ((cs.dropWhile pyWs).reverse.dropWhile pyWs).reverse

/-- Model of `re.search(r"\x7b.*\x7d", text, re.DOTALL)`: the greedy match
runs from the first opening brace to the last closing brace, provided the
latter comes after the former. -/
def braceSpan (cs : List Char) : Option (List Char) :=
  match cs.dropWhile (fun c => ¬ c = lbrace) with
  | [] => none
  | c :: rest =>
      match (c :: rest).reverse.dropWhile (fun c => ¬ c = rbrace) with
      | [] => none
      | r :: rs => some ((r :: rs).reverse)

/-- Model of `.replace(Char.ofNat 10, ' ').replace(Char.ofNat 13, '')` applied
to the matched span: newlines become spaces, carriage returns vanish. -/
def normalizeNl (cs : List Char) : List Char :=
  (cs.map (fun c => if c = Char.ofNat 10 then ' ' else c)).filter
    (fun c => ¬ c = Char.ofNat 13)

/-- Body of a Python string literal after its opening quote, for the
`ast.literal_eval` model: an unescaped newline is a syntax error, a
backslash followed by a newline is a line continuation, the common escapes
are decoded and an unknown escape keeps the backslash. -/
def pyStrBody (q : Char) : List Char → List Char → Option (List Char × List Char)
  | [], _ => none
  | c :: rest, acc =>
      if c = q then some (acc.reverse, rest)
      else if c = Char.ofNat 92 then
        match rest with
        | [] => none
        | e :: rest2 =>
            if e = Char.ofNat 92 then pyStrBody q rest2 (Char.ofNat 92 :: acc)
            else if e = sQuoteC then pyStrBody q rest2 (sQuoteC :: acc)
            else if e = Char.ofNat 34 then pyStrBody q rest2 (Char.ofNat 34 :: acc)
            else if e = 'n' then pyStrBody q rest2 (Char.ofNat 10 :: acc)
            else if e = 't' then pyStrBody q rest2 (Char.ofNat 9 :: acc)
            else if e = 'r' then pyStrBody q rest2 (Char.ofNat 13 :: acc)
            else if e = Char.ofNat 10 then pyStrBody q rest2 acc
            else pyStrBody q rest2 (e :: Char.ofNat 92 :: acc)
      else if c = Char.ofNat 10 ∨ c = Char.ofNat 13 then none
      else pyStrBody q rest (c :: acc)

/-- Parsing mode for the `ast.literal_eval` model: a value, or the elements
of a bracketed sequence with its closing character. -/
inductive LMode where
  | val
  | seqElems (close : Char) (acc : List PyVal)

/-- Fuelled recursive part of the `ast.literal_eval` model.  It covers the
literal forms that can actually reach this call in `extract_json`: strings,
numbers, `True`, `False`, `None`, lists, tuples and parenthesised literals.
Brace-delimited literals (dicts, sets) never parse on this path, because a
text containing a closing brace after an opening brace is routed to the
regex branch instead, so a leading brace is rejected here exactly as every
other unparseable text is. -/
def pyLitStep : Nat → LMode → List Char → Option (PyVal × List Char)
  | 0, _, _ => none
  | Nat.succ f, LMode.val, cs =>
      match skipWs cs with
      | [] => none
      | c :: rest =>
          if c = sQuoteC ∨ c = Char.ofNat 34 then
            match pyStrBody c rest [] with
            | some (content, r) => some (.str (String.mk content), r)
            | none => none
          else if c = '[' then
            match skipWs rest with
            | c2 :: rest2 =>
                if c2 = ']' then some (.list [], rest2)
                else pyLitStep f (LMode.seqElems ']' []) (c2 :: rest2)
            | [] => none
          else if c = '(' then
            match skipWs rest with
            | c2 :: rest2 =>
                if c2 = ')' then some (.list [], rest2)
                else
                  match pyLitStep f LMode.val (c2 :: rest2) with
                  | some (v, r1) =>
                      match skipWs r1 with
                      | ')' :: r2 => some (v, r2)
                      | ',' :: r2 =>
                          match skipWs r2 with
                          | ')' :: r3 => some (.list [v], r3)
                          | r3 => pyLitStep f (LMode.seqElems ')' [v]) r3
                      | _ => none
                  | none => none
            | [] => none
          else if c = 'T' then
            match rest with
            | 'r' :: 'u' :: 'e' :: r => some (.bool true, r)
            | _ => none
          else if c = 'F' then
            match rest with
            | 'a' :: 'l' :: 's' :: 'e' :: r => some (.bool false, r)
            | _ => none
          else if c = 'N' then
            match rest with
            | 'o' :: 'n' :: 'e' :: r => some (.null, r)
            | _ => none
          else if c = '+' then parseNum rest
          else if c = '-' ∨ c.isDigit then parseNum (c :: rest)
          else none
  | Nat.succ f, LMode.seqElems close acc, cs =>
      match pyLitStep f LMode.val cs with
      | some (v, r1) =>
          match skipWs r1 with
          | ',' :: r2 =>
              match skipWs r2 with
              | c3 :: r3 =>
                  if c3 = close then some (.list (acc ++ [v]), r3)
                  else pyLitStep f (LMode.seqElems close (acc ++ [v])) (c3 :: r3)
              | [] => none
          | c2 :: r2 =>
              if c2 = close then some (.list (acc ++ [v]), r2)
              else none
          | [] => none
      | none => none

/-- Model of `ast.literal_eval` on a character list: one literal with only
surrounding whitespace. -/
def pyLiteralEvalList (cs : List Char) : Option PyVal :=
  match pyLitStep (cs.length + 1) LMode.val cs with
  | some (v, r) => if skipWs r = [] then some v else none
  | none => none

/-- The dict returned by the `except` handler of `extract_json`
(src/index.py lines 210 to 215). -/
def extractJsonFallback : PyVal :=
  .dict [("summary", .str "Error parsing response."),
         ("compromise", .str "Could not extract valid JSON from the model response.")]

/-- The reassigned `text` of `extract_json` after fence removal and
stripping (src/index.py line 200). -/
def strippedOf (text : String) : List Char :=
  pyStrip (stripTicksAux text.toList)

/-- Model of `extract_json` (src/index.py lines 193 to 215): strip code
fences and whitespace, take the greedy brace span and `json.loads` it after
newline normalisation, otherwise `ast.literal_eval` the whole text; any
failure yields the fallback dict. -/
def extract_json (text : String) : PyVal :=
  let t := strippedOf text
  match braceSpan t with
  | some span =>
      match parseJsonList (normalizeNl span) with
      | some v => v
      | none => extractJsonFallback
  | none =>
      match pyLiteralEvalList t with
      | some v => v
      | none => extractJsonFallback

/-- Print name of a Python type, used in modelled exception texts. -/
def pyTypeName : PyVal → String
  | .str _ => "str"
  | .int _ => "int"
  | .float _ => "float"
  | .bool _ => "bool"
  | .null => "NoneType"
  | .list _ => "list"
  | .dict _ => "dict"

/-- Needle occurs as a prefix of the haystack. -/
def isSubAt : List Char → List Char → Bool
  | [], _ => true
  | _ :: _, [] => false
  | a :: as2, b :: bs => a = b && isSubAt as2 bs

/-- Needle occurs somewhere in the haystack. -/
def hasSub : List Char → List Char → Bool
  | n, [] => isSubAt n []
  | n, c :: rest => isSubAt n (c :: rest) || hasSub n rest

/-- Model of the Python expression `key in v`: key containment for dicts,
substring search for strings, membership for lists; a `TypeError` for the
other types, reported as `Except.error` with the CPython message. -/
def pyContainsStr (v : PyVal) (key : String) : Except String Bool :=
  match v with
  | .dict kvs => .ok (dictLookup kvs key).isSome
  | .str s => .ok (hasSub key.toList s.toList)
  | .list xs =>
      .ok (xs.any (fun x => match x with | .str s => s = key | _ => false))
  | v2 => .error ("argument of type " ++ sQuote ++ pyTypeName v2 ++ sQuote ++ " is not iterable")

/-- Model of the Python expression `v.get(key, default)`: defined for dicts,
an `AttributeError` for every other type. -/
def pyGetAttr (v : PyVal) (key : String) (dflt : PyVal) : Except String PyVal :=
  match v with
  | .dict kvs => .ok ((dictLookup kvs key).getD dflt)
  | v2 => .error (sQuote ++ pyTypeName v2 ++ sQuote ++ " object has no attribute " ++ sQuote ++ "get" ++ sQuote)

/-- The dict built by the `except json.JSONDecodeError` handler of
`generate_verdict` (src/index.py lines 174 to 179). -/
def jsonDecodeFallback : PyVal :=
  .dict [("compromise", .str "The negotiation was processed, but a structured verdict could not be generated. Please try again."),
         ("summary", .str "Error parsing AI response.")]

/-- The verdict returned when the parsed object lacks a required field
(src/index.py lines 162 to 172): the fixed fallback dict is substituted and
then read back through `dict.get`, so the compromise field comes first. -/
def fixedFallbackResult : PyVal :=
  .dict [("compromise", .str "Please try again with clearer negotiation points."),
         ("summary", .str "Failed to generate proper verdict format.")]

/-- Model of the verdict post-processing of `generate_verdict`
(src/index.py lines 156 to 179), from `json_text = extract_json(...)` to one
of the `return` statements of the inner `try`.  An `Except.error` result is
an exception that escapes the inner `try` (a `TypeError` from `in` on a
non-container, or an `AttributeError` from `.get` on a non-dict) and reaches
the outer handler. -/
def verdict_from_contentE (content : String) : Except String PyVal :=
  let json_text := extract_json content
  let loaded : Option PyVal :=
    match json_text with
    | .str s => parseJsonStr s
    | v => some v
  match loaded with
  | none => .ok jsonDecodeFallback
  | some verdict =>
      match pyContainsStr verdict "summary" with
      | .error e => .error e
      | .ok hasS =>
          if ¬ hasS then .ok fixedFallbackResult
          else
            match pyContainsStr verdict "compromise" with
            | .error e => .error e
            | .ok hasC =>
                if ¬ hasC then .ok fixedFallbackResult
                else
                  match pyGetAttr verdict "compromise" (.str "Compromise here") with
                  | .error e => .error e
                  | .ok cv =>
                      match pyGetAttr verdict "summary" (.str "Summary here") with
                      | .error e => .error e
                      | .ok sv => .ok (.dict [("compromise", cv), ("summary", sv)])

/-- The dict built by the outer `except Exception` handler of
`generate_verdict` (src/index.py lines 186 to 191). -/
def outerExceptVerdict (e : String) : PyVal :=
  .dict [("compromise", .str ("An error occurred: " ++ e)),
         ("summary", .str "Error generating verdict.")]

/-- The extraction pipeline observed from outside `generate_verdict`: the
composition of `extract_json` and the verdict post-processing, with the
outer exception handler applied.  This is the `ResponseExtractor.extract`
of the specification. -/
def verdict_from_content (content : String) : PyVal :=
  match verdict_from_contentE content with
  | .ok v => v
  | .error e => outerExceptVerdict e

/-- One message of a negotiation transcript (src/index.py lines 71 to 74). -/
structure Msg where
  speaker : String
  message : String
deriving DecidableEq

/-- Outcome of the `requests.post` call to the oracle: a response with a
status code and body text, or a transport-level exception with its text. -/
inductive OracleOutcome where
  | resp (status : Nat) (body : String)
  | netError (msg : String)

/-- Model of `response.json()["choices"][0]["message"]["content"]` on a 200
response (src/index.py lines 152 to 153).  An `Except.error` is an exception
escaping to the outer handler; the message texts approximate the CPython
ones and no claim depends on them. -/
def contentOf (body : String) : Except String String :=
  match parseJsonStr body with
  | none => .error "Expecting value: line 1 column 1 (char 0)"
  | some v =>
      match v with
      | .dict kvs =>
          match dictLookup kvs "choices" with
          | none => .error (sQuote ++ "choices" ++ sQuote)
          | some (.list xs) =>
              match xs with
              | [] => .error "list index out of range"
              | x :: _ =>
                  match x with
                  | .dict m =>
                      match dictLookup m "message" with
                      | none => .error (sQuote ++ "message" ++ sQuote)
                      | some (.dict mm) =>
                          match dictLookup mm "content" with
                          | none => .error (sQuote ++ "content" ++ sQuote)
                          | some (.str c) => .ok c
                          | some other =>
                              .error ("expected string or bytes-like object, got " ++
                                      sQuote ++ pyTypeName other ++ sQuote)
                      | some other => .error ("indices must be str, not " ++ pyTypeName other)
                  | other => .error ("indices must be str, not " ++ pyTypeName other)
          | some other => .error (pyTypeName other ++ " indices must be integers")
      | other => .error (pyTypeName other ++ " indices must be str")

/-- Model of `generate_verdict` (src/index.py lines 111 to 191) as a
function of the oracle outcome.  The transcript only feeds the prompt sent
to the oracle, so the verdict value depends on the outcome alone. -/
def generate_verdict (o : OracleOutcome) (messages : List Msg) : PyVal :=
  match o with
  | .netError e => outerExceptVerdict e
  | .resp status body =>
      if status = 200 then
        match contentOf body with
        | .ok c => verdict_from_content c
        | .error e => outerExceptVerdict e
      else
        .dict [("summary", .str "API request failed."),
               ("compromise", .str ("Status code: " ++ toString status ++ ". Error: " ++ body))]

/-- One negotiation session as stored in the `negotiations` dict
(src/index.py lines 22 to 29 and 55 to 60). -/
structure Negotiation where
  messages : List Msg
  user1_count : Nat
  user2_count : Nat
  total_count : Nat
deriving DecidableEq

/-- A fresh session (src/index.py lines 55 to 60). -/
def emptyNeg : Negotiation := ⟨[], 0, 0, 0⟩

/-- The in-memory `negotiations` registry, keyed by identifier. -/
abbrev Store := List (String × Negotiation)

/-- Lookup in the registry. -/
def storeGet : Store → String → Option Negotiation
  | [], _ => none
  | (k, v) :: rest, id => if k = id then some v else storeGet rest id

/-- Assignment `negotiations[id] = n`: overwrite in place or append. -/
def storeSet : Store → String → Negotiation → Store
  | [], id, n => [(id, n)]
  | (k, v) :: rest, id, n =>
      if k = id then (k, n) :: rest else (k, v) :: storeSet rest id n

/-- The parsed request body of `POST /negotiate`.  The program reads three
fields with `data.get`; absent fields are `none`, and the handler treats the
empty string like an absent field through Python falsiness. -/
structure NegotiateReq where
  negotiation_id : Option String
  speaker : Option String
  message : Option String

/-- JSON rendering of one stored message. -/
def msgToPy (m : Msg) : PyVal :=
  .dict [("speaker", .str m.speaker), ("message", .str m.message)]

/-- Error text of the missing-field 400 response (src/index.py line 47). -/
def missingFieldsMsg : String :=
  "Missing required fields: " ++ sQuote ++ "speaker" ++ sQuote ++ " and " ++
  sQuote ++ "message" ++ sQuote ++ " are required"

/-- Error text of the invalid-speaker 400 response (src/index.py line 50). -/
def invalidSpeakerMsg : String :=
  "Speaker must be either " ++ sQuote ++ "user1" ++ sQuote ++ " or " ++
  sQuote ++ "user2" ++ sQuote

/-- Appending one message and updating the three counters
(src/index.py lines 70 to 82). -/
def appendMsg (n : Negotiation) (sp m : String) : Negotiation :=
  { messages := n.messages ++ [⟨sp, m⟩],
    user1_count := if sp = "user1" then n.user1_count + 1 else n.user1_count,
    user2_count := if sp = "user1" then n.user2_count else n.user2_count + 1,
    total_count := n.total_count + 1 }

/-- The quota check, mutation and response construction of the `negotiate`
handler once the session is resolved (src/index.py lines 64 to 106). -/
def handleMessage (s : Store) (nid : String) (neg : Negotiation) (sp m : String)
    (o : OracleOutcome) : (PyVal × Nat) × Store :=
  if sp = "user1" ∧ 5 ≤ neg.user1_count then
    ((.dict [("error", .str "User1 has already sent 5 messages")], 400), s)
  else if sp = "user2" ∧ 5 ≤ neg.user2_count then
    ((.dict [("error", .str "User2 has already sent 5 messages")], 400), s)
  else
    let neg2 := appendMsg neg sp m
    let s2 := storeSet s nid neg2
    if neg2.total_count = 10 then
      ((.dict [("negotiation_id", .str nid),
               ("status", .str "completed"),
               ("verdict", generate_verdict o neg2.messages)], 200), s2)
    else
      ((.dict [("negotiation_id", .str nid),
               ("status", .str "in_progress"),
               ("messages_sent", .int (neg2.total_count : Int)),
               ("user1_messages", .int (neg2.user1_count : Int)),
               ("user2_messages", .int (neg2.user2_count : Int)),
               ("messages_remaining", .int (10 - (neg2.total_count : Int)))], 200), s2)

/-- Model of the `POST /negotiate` handler (src/index.py lines 31 to 109).
`freshId` stands for the `uuid.uuid4()` string drawn when a session is
created, and `o` for the outcome of the oracle call, should one happen.
The result is the JSON body with its HTTP status, and the updated registry. -/
def negotiate (s : Store) (freshId : String) (o : OracleOutcome)
    (data : Option NegotiateReq) : (PyVal × Nat) × Store :=
  match data with
  | none => ((.dict [("error", .str "Invalid request format")], 400), s)
  | some d =>
      match d.speaker, d.message with
      | some sp, some m =>
          if sp = "" ∨ m = "" then
            ((.dict [("error", .str missingFieldsMsg)], 400), s)
          else if ¬ (sp = "user1" ∨ sp = "user2") then
            ((.dict [("error", .str invalidSpeakerMsg)], 400), s)
          else
            match d.negotiation_id with
            | none => handleMessage (storeSet s freshId emptyNeg) freshId emptyNeg sp m o
            | some nid =>
                if nid = "" then
                  handleMessage (storeSet s freshId emptyNeg) freshId emptyNeg sp m o
                else
                  match storeGet s nid with
                  | none =>
                      ((.dict [("error", .str ("Negotiation with ID " ++ nid ++ " not found"))], 404), s)
                  | some neg => handleMessage s nid neg sp m o
      | _, _ => ((.dict [("error", .str missingFieldsMsg)], 400), s)

/-- Model of the `GET /negotiation/<id>` handler (src/index.py lines 217
to 242).  Reading never mutates the registry; on a full session the verdict
is recomputed from a fresh oracle call whose outcome is `o`. -/
def get_negotiation (s : Store) (o : OracleOutcome) (nid : String) : PyVal × Nat :=
  match storeGet s nid with
  | none => (.dict [("error", .str "Negotiation not found")], 404)
  | some n =>
      let base : List (String × PyVal) :=
        [("negotiation_id", .str nid),
         ("status", .str (if n.total_count < 10 then "in_progress" else "completed")),
         ("messages_sent", .int (n.total_count : Int)),
         ("user1_messages", .int (n.user1_count : Int)),
         ("user2_messages", .int (n.user2_count : Int)),
         ("messages_remaining", .int (max 0 (10 - (n.total_count : Int)))),
         ("messages", .list (n.messages.map msgToPy))]
      if n.total_count = 10 then
        (.dict (base ++ [("verdict", generate_verdict o n.messages)]), 200)
      else
        (.dict base, 200)

/-- The stores reachable from the empty registry through the public
operations.  Only `POST /negotiate` mutates the registry; a `uuid4` string
is never empty. -/
inductive Reachable : Store → Prop where
  | init : Reachable []
  | step (s : Store) (fid : String) (o : OracleOutcome) (d : Option NegotiateReq)
      (hfid : fid ≠ "") (hs : Reachable s) : Reachable (negotiate s fid o d).2

/-- The per-session invariant: counts bounded by the quota, counts summing
to the transcript length, and the running total agreeing with the sum. -/
def InvN (n : Negotiation) : Prop :=
  n.user1_count ≤ 5 ∧ n.user2_count ≤ 5 ∧
  n.user1_count + n.user2_count = n.messages.length ∧
  n.total_count = n.user1_count + n.user2_count

/-- The registry invariant: every stored session satisfies `InvN` and is
keyed by a nonempty identifier. -/
def StoreInv (s : Store) : Prop := ∀ p ∈ s, p.1 ≠ "" ∧ InvN p.2

theorem storeGet_mem {s : Store} {id : String} {n : Negotiation}
    (h : storeGet s id = some n) : (id, n) ∈ s := by
  induction s with
  | nil => simp [storeGet] at h
  | cons p rest ih =>
      obtain ⟨k, v⟩ := p
      by_cases hk : k = id
      · subst hk
        simp [storeGet] at h
        simp [h]
      · simp [storeGet, hk] at h
        exact List.mem_cons_of_mem _ (ih h)

theorem mem_storeSet {s : Store} {k : String} {v : Negotiation} {p : String × Negotiation}
    (h : p ∈ storeSet s k v) : p ∈ s ∨ p = (k, v) := by
  induction s with
  | nil => simp [storeSet] at h; simp [h]
  | cons q rest ih =>
      obtain ⟨k2, v2⟩ := q
      by_cases hk : k2 = k
      · subst hk
        simp [storeSet] at h
        rcases h with h | h
        · right; simp [h]
        · left; exact List.mem_cons_of_mem _ h
      · simp [storeSet, hk] at h
        rcases h with h | h
        · left; simp [h]
        · rcases ih h with h2 | h2
          · left; exact List.mem_cons_of_mem _ h2
          · right; exact h2

theorem invN_empty : InvN emptyNeg := by
  simp [InvN, emptyNeg]

theorem invN_append {neg : Negotiation} {sp m : String} (hneg : InvN neg)
    (hsp : sp = "user1" ∨ sp = "user2")
    (h1 : ¬ (sp = "user1" ∧ 5 ≤ neg.user1_count))
    (h2 : ¬ (sp = "user2" ∧ 5 ≤ neg.user2_count)) :
    InvN (appendMsg neg sp m) := by
  obtain ⟨hb1, hb2, hsum, htot⟩ := hneg
  rcases hsp with hsp | hsp
  · subst hsp
    simp [InvN, appendMsg] at *
    omega
  · have hne : sp ≠ "user1" := by subst hsp; decide
    subst hsp
    simp [InvN, appendMsg] at *
    omega

theorem handleMessage_inv {s : Store} {nid : String} {neg : Negotiation} {sp m : String}
    {o : OracleOutcome} (hs : StoreInv s) (hneg : InvN neg) (hnid : nid ≠ "")
    (hsp : sp = "user1" ∨ sp = "user2") :
    StoreInv (handleMessage s nid neg sp m o).2 := by
  unfold handleMessage
  split
  · exact hs
  · split
    · exact hs
    · next hq1 hq2 =>
        simp only []
        split
        all_goals
          intro p hp
          rcases mem_storeSet hp with h | h
          · exact hs p h
          · subst h
            exact ⟨hnid, invN_append hneg hsp hq1 hq2⟩

theorem negotiate_inv {s : Store} {fid : String} {o : OracleOutcome}
    {d : Option NegotiateReq} (hs : StoreInv s) (hfid : fid ≠ "") :
    StoreInv (negotiate s fid o d).2 := by
  unfold negotiate
  split
  · exact hs
  · next d2 =>
      split
      · next sp m _ _ =>
          split
          · exact hs
          · split
            · exact hs
            · next hv =>
                have hsp : sp = "user1" ∨ sp = "user2" := by
                  by_contra hc
                  exact hv (by tauto)
                have hcreate : StoreInv (storeSet s fid emptyNeg) := by
                  intro p hp
                  rcases mem_storeSet hp with h | h
                  · exact hs p h
                  · subst h; exact ⟨hfid, invN_empty⟩
                split
                · exact handleMessage_inv hcreate invN_empty hfid hsp
                · next nid =>
                    split
                    · exact handleMessage_inv hcreate invN_empty hfid hsp
                    · next hne =>
                        split
                        · exact hs
                        · next neg hget =>
                            exact handleMessage_inv hs ((hs _ (storeGet_mem hget)).2) hne hsp
      · exact hs

theorem reachable_inv {s : Store} (hs : Reachable s) : StoreInv s := by
  induction hs with
  | init => intro p hp; simp at hp
  | step s fid o d hfid _ ih => exact negotiate_inv ih hfid

theorem negotiate_existing {s : Store} {fid : String} {o : OracleOutcome}
    {id : String} {n : Negotiation} {sp m : String}
    (hid : id ≠ "") (h : storeGet s id = some n)
    (hsp : sp = "user1" ∨ sp = "user2") (hm : m ≠ "") :
    negotiate s fid o (some ⟨some id, some sp, some m⟩) = handleMessage s id n sp m o := by
  rcases hsp with hsp | hsp <;> subst hsp <;> simp [negotiate, hm, hid, h]

/-- C1: in every reachable registry state, each stored session has its two
party counts summing to the length of its transcript, with both counts at
most 5. -/
theorem negotiation_counts_invariant (s : Store) (hs : Reachable s)
    (id : String) (n : Negotiation) (h : storeGet s id = some n) :
    n.user1_count + n.user2_count = n.messages.length ∧
    n.user1_count ≤ 5 ∧ n.user2_count ≤ 5 := by
  have hn := (reachable_inv hs _ (storeGet_mem h)).2
  exact ⟨hn.2.2.1, hn.1, hn.2.1⟩

/-- Witness for C1 at the registry reached by one accepted message. -/
theorem negotiation_counts_invariant_witness :
    (Negotiation.mk [Msg.mk "user1" "hi"] 1 0 1).user1_count +
      (Negotiation.mk [Msg.mk "user1" "hi"] 1 0 1).user2_count =
      (Negotiation.mk [Msg.mk "user1" "hi"] 1 0 1).messages.length ∧
    (Negotiation.mk [Msg.mk "user1" "hi"] 1 0 1).user1_count ≤ 5 ∧
    (Negotiation.mk [Msg.mk "user1" "hi"] 1 0 1).user2_count ≤ 5 :=
  negotiation_counts_invariant _
    (Reachable.step [] "a" (.netError "e") (some ⟨none, some "user1", some "hi"⟩)
      (by decide) Reachable.init)
    "a" _ rfl

/-- C2: in every reachable registry state, a stored session never holds more
than 10 messages; a request on it produces the completed response exactly
when the named speaker is under quota and the pre-increment total is 9 (the
post-increment total reaches 10); and once the total is 10 the handler
rejects both parties with their quota error and leaves the registry
unchanged, so the transition to the completed status happens exactly once. -/
theorem completion_once_and_quota (s : Store) (hs : Reachable s)
    (id : String) (n : Negotiation) (h : storeGet s id = some n) :
    n.total_count ≤ 10 ∧
    (∀ fid o sp m, (sp = "user1" ∨ sp = "user2") → m ≠ "" →
      (((negotiate s fid o (some ⟨some id, some sp, some m⟩)).1.2 = 200 ∧
        dictGet (negotiate s fid o (some ⟨some id, some sp, some m⟩)).1.1 "status" =
          some (.str "completed")) ↔
       ((if sp = "user1" then n.user1_count else n.user2_count) < 5 ∧ n.total_count = 9))) ∧
    (n.total_count = 10 → ∀ fid o sp m, (sp = "user1" ∨ sp = "user2") → m ≠ "" →
      negotiate s fid o (some ⟨some id, some sp, some m⟩) =
        ((.dict [("error", .str (if sp = "user1"
            then "User1 has already sent 5 messages"
            else "User2 has already sent 5 messages"))], 400), s)) := by
  obtain ⟨hid, hb1, hb2, hsum, htot⟩ :
      id ≠ "" ∧ n.user1_count ≤ 5 ∧ n.user2_count ≤ 5 ∧
      n.user1_count + n.user2_count = n.messages.length ∧
      n.total_count = n.user1_count + n.user2_count := by
    have hn := reachable_inv hs _ (storeGet_mem h)
    exact ⟨hn.1, hn.2.1, hn.2.2.1, hn.2.2.2.1, hn.2.2.2.2⟩
  refine ⟨by omega, ?_, ?_⟩
  · intro fid o sp m hsp hm
    rw [negotiate_existing hid h hsp hm]
    rcases hsp with hsp | hsp <;> subst hsp
    · by_cases hq : 5 ≤ n.user1_count
      · simp [handleMessage, hq]
      · by_cases h9 : n.total_count = 9
        · simp [handleMessage, hq, appendMsg, h9, dictGet, dictLookup]
          omega
        · have hne10 : ¬ (n.total_count + 1 = 10) := by omega
          simp [handleMessage, hq, appendMsg, hne10, dictGet, dictLookup]
          omega
    · by_cases hq : 5 ≤ n.user2_count
      · simp [handleMessage, hq]
      · by_cases h9 : n.total_count = 9
        · simp [handleMessage, hq, appendMsg, h9, dictGet, dictLookup]
          omega
        · have hne10 : ¬ (n.total_count + 1 = 10) := by omega
          simp [handleMessage, hq, appendMsg, hne10, dictGet, dictLookup]
          omega
  · intro h10 fid o sp m hsp hm
    have hq1 : 5 ≤ n.user1_count := by omega
    have hq2 : 5 ≤ n.user2_count := by omega
    rw [negotiate_existing hid h hsp hm]
    rcases hsp with hsp | hsp <;> subst hsp <;> simp [handleMessage, hq1, hq2]

/-- The registry reached by one accepted first message, used by witnesses. -/
def stepStore : Store :=
  (negotiate [] "a" (.netError "e") (some ⟨none, some "user1", some "hi"⟩)).2

/-- The session stored in `stepStore`. -/
def stepNeg : Negotiation := ⟨[⟨"user1", "hi"⟩], 1, 0, 1⟩

theorem stepStore_reachable : Reachable stepStore :=
  Reachable.step [] "a" (.netError "e") (some ⟨none, some "user1", some "hi"⟩)
    (by decide) Reachable.init

/-- Witness for C2 at the registry reached by one accepted message. -/
theorem completion_once_and_quota_witness :
    stepNeg.total_count ≤ 10 ∧
    (((negotiate stepStore "b" (.netError "e")
          (some ⟨some "a", some "user1", some "again"⟩)).1.2 = 200 ∧
      dictGet (negotiate stepStore "b" (.netError "e")
          (some ⟨some "a", some "user1", some "again"⟩)).1.1 "status" =
        some (.str "completed")) ↔
     ((if ("user1" : String) = "user1" then stepNeg.user1_count else stepNeg.user2_count) < 5 ∧
      stepNeg.total_count = 9)) :=
  ⟨(completion_once_and_quota stepStore stepStore_reachable "a" stepNeg rfl).1,
   (completion_once_and_quota stepStore stepStore_reachable "a" stepNeg rfl).2.1
     "b" (.netError "e") "user1" "again" (Or.inl rfl) (by decide)⟩

/-- C7: on an existing session whose user1 count is already 5, a request
from user1 is rejected with status 400 and the exact quota message, and the
registry, hence the transcript and the counts, is unchanged. -/
theorem quota_rejection_user1 (s : Store) (fid : String) (o : OracleOutcome)
    (id : String) (n : Negotiation) (m : String)
    (h : storeGet s id = some n) (h5 : n.user1_count = 5)
    (hid : id ≠ "") (hm : m ≠ "") :
    negotiate s fid o (some ⟨some id, some "user1", some m⟩) =
      ((.dict [("error", .str "User1 has already sent 5 messages")], 400), s) := by
  rw [negotiate_existing hid h (Or.inl rfl) hm]
  simp [handleMessage, h5]

/-- Witness for C7 on a concrete exhausted session. -/
theorem quota_rejection_user1_witness :
    negotiate [("x", ⟨[], 5, 0, 5⟩)] "f" (.netError "e")
        (some ⟨some "x", some "user1", some "6th"⟩) =
      ((.dict [("error", .str "User1 has already sent 5 messages")], 400),
       [("x", ⟨[], 5, 0, 5⟩)]) :=
  quota_rejection_user1 [("x", ⟨[], 5, 0, 5⟩)] "f" (.netError "e") "x" ⟨[], 5, 0, 5⟩ "6th"
    rfl rfl (by decide) (by decide)

/-- C8: a request without a negotiation id, from user1, with a nonempty
message, creates a session under the fresh identifier and answers 200 with
status in progress, one user1 message and nine messages remaining. -/
theorem first_message_response (s : Store) (fid : String) (o : OracleOutcome)
    (m : String) (hm : m ≠ "") :
    negotiate s fid o (some ⟨none, some "user1", some m⟩) =
      ((.dict [("negotiation_id", .str fid),
               ("status", .str "in_progress"),
               ("messages_sent", .int 1),
               ("user1_messages", .int 1),
               ("user2_messages", .int 0),
               ("messages_remaining", .int 9)], 200),
       storeSet (storeSet s fid emptyNeg) fid ⟨[⟨"user1", m⟩], 1, 0, 1⟩) := by
  simp [negotiate, hm, handleMessage, emptyNeg, appendMsg]

/-- Witness for C8 on the empty registry. -/
theorem first_message_response_witness :
    negotiate [] "id1" (.netError "e") (some ⟨none, some "user1", some "offer A"⟩) =
      ((.dict [("negotiation_id", .str "id1"),
               ("status", .str "in_progress"),
               ("messages_sent", .int 1),
               ("user1_messages", .int 1),
               ("user2_messages", .int 0),
               ("messages_remaining", .int 9)], 200),
       storeSet (storeSet [] "id1" emptyNeg) "id1" ⟨[⟨"user1", "offer A"⟩], 1, 0, 1⟩) :=
  first_message_response [] "id1" (.netError "e") "offer A" (by decide)

/-- C9: reading a session whose total is 10 recomputes the verdict from the
oracle outcome of this very read and includes it in the 200 response, so
each read reflects a fresh oracle call instead of a cached verdict. -/
theorem verdict_recompute_on_read (s : Store) (o : OracleOutcome)
    (id : String) (n : Negotiation)
    (h : storeGet s id = some n) (h10 : n.total_count = 10) :
    get_negotiation s o id =
      (.dict [("negotiation_id", .str id),
              ("status", .str "completed"),
              ("messages_sent", .int 10),
              ("user1_messages", .int (n.user1_count : Int)),
              ("user2_messages", .int (n.user2_count : Int)),
              ("messages_remaining", .int 0),
              ("messages", .list (n.messages.map msgToPy)),
              ("verdict", generate_verdict o n.messages)], 200) := by
  simp [get_negotiation, h, h10]

/-- Witness for C9 on a concrete full session and a failing oracle. -/
theorem verdict_recompute_on_read_witness :
    get_negotiation [("x", ⟨[⟨"user1", "a"⟩], 5, 5, 10⟩)] (.resp 500 "oops") "x" =
      (.dict [("negotiation_id", .str "x"),
              ("status", .str "completed"),
              ("messages_sent", .int 10),
              ("user1_messages", .int 5),
              ("user2_messages", .int 5),
              ("messages_remaining", .int 0),
              ("messages", .list ([Msg.mk "user1" "a"].map msgToPy)),
              ("verdict", generate_verdict (.resp 500 "oops") [Msg.mk "user1" "a"])], 200) :=
  verdict_recompute_on_read [("x", ⟨[⟨"user1", "a"⟩], 5, 5, 10⟩)] (.resp 500 "oops")
    "x" ⟨[⟨"user1", "a"⟩], 5, 5, 10⟩ rfl rfl

/-- C10: a present but empty message field, or a present but empty speaker
field, is rejected with the missing-required-fields 400 before any session
is created or touched, and the response is identical to the one for an
absent field. -/
theorem empty_fields_rejected (s : Store) (fid : String) (o : OracleOutcome)
    (nid : Option String) (sp : Option String) (m : Option String) :
    negotiate s fid o (some ⟨nid, sp, some ""⟩) =
      ((.dict [("error", .str missingFieldsMsg)], 400), s) ∧
    negotiate s fid o (some ⟨nid, some "", m⟩) =
      ((.dict [("error", .str missingFieldsMsg)], 400), s) ∧
    negotiate s fid o (some ⟨nid, sp, some ""⟩) = negotiate s fid o (some ⟨nid, sp, none⟩) ∧
    negotiate s fid o (some ⟨nid, some "", m⟩) = negotiate s fid o (some ⟨nid, none, m⟩) := by
  refine ⟨?_, ?_, ?_, ?_⟩
  · cases sp with
    | none => simp [negotiate]
    | some sp2 => simp [negotiate]
  · cases m with
    | none => simp [negotiate]
    | some m2 => simp [negotiate]
  · cases sp with
    | none => simp [negotiate]
    | some sp2 => simp [negotiate]
  · cases m with
    | none => simp [negotiate]
    | some m2 => simp [negotiate]

/-- C6: a non-success oracle status yields the degraded verdict carrying the
status code and body; a transport error yields the degraded verdict carrying
the exception text; and the completing request still answers 200 with the
verdict attached, for every oracle outcome, so an oracle failure is never
surfaced as an HTTP error. -/
theorem oracle_failure_degraded :
    (∀ (status : Nat) (body : String) (msgs : List Msg), status ≠ 200 →
      generate_verdict (.resp status body) msgs =
        .dict [("summary", .str "API request failed."),
               ("compromise", .str ("Status code: " ++ toString status ++ ". Error: " ++ body))]) ∧
    (∀ (e : String) (msgs : List Msg),
      generate_verdict (.netError e) msgs =
        .dict [("compromise", .str ("An error occurred: " ++ e)),
               ("summary", .str "Error generating verdict.")]) ∧
    (∀ (s : Store) (id : String) (n : Negotiation) (fid : String) (o : OracleOutcome)
        (sp m : String),
      storeGet s id = some n → id ≠ "" → (sp = "user1" ∨ sp = "user2") → m ≠ "" →
      n.total_count = 9 →
      (sp = "user1" → n.user1_count < 5) → (sp = "user2" → n.user2_count < 5) →
      (negotiate s fid o (some ⟨some id, some sp, some m⟩)).1.2 = 200 ∧
      dictGet (negotiate s fid o (some ⟨some id, some sp, some m⟩)).1.1 "verdict" =
        some (generate_verdict o (appendMsg n sp m).messages)) := by
  refine ⟨?_, ?_, ?_⟩
  · intro status body msgs hne
    simp [generate_verdict, hne]
  · intro e msgs
    simp [generate_verdict, outerExceptVerdict]
  · intro s id n fid o sp m h hid hsp hm h9 hq1 hq2
    rw [negotiate_existing hid h hsp hm]
    rcases hsp with hsp | hsp <;> subst hsp
    · have hq : ¬ 5 ≤ n.user1_count := by
        have := hq1 rfl
        omega
      simp [handleMessage, hq, appendMsg, h9, dictGet, dictLookup]
    · have hq : ¬ 5 ≤ n.user2_count := by
        have := hq2 rfl
        omega
      simp [handleMessage, hq, appendMsg, h9, dictGet, dictLookup]

/-- Witness for C6: a 404 oracle response, a transport error, and a
completing request under a failing oracle. -/
theorem oracle_failure_degraded_witness :
    generate_verdict (.resp 404 "nf") [] =
      .dict [("summary", .str "API request failed."),
             ("compromise", .str ("Status code: " ++ toString (404 : Nat) ++ ". Error: " ++ "nf"))] ∧
    generate_verdict (.netError "boom") [] =
      .dict [("compromise", .str ("An error occurred: " ++ "boom")),
             ("summary", .str "Error generating verdict.")] ∧
    ((negotiate [("x", ⟨[], 4, 5, 9⟩)] "f" (.netError "boom")
        (some ⟨some "x", some "user1", some "last"⟩)).1.2 = 200 ∧
     dictGet (negotiate [("x", ⟨[], 4, 5, 9⟩)] "f" (.netError "boom")
        (some ⟨some "x", some "user1", some "last"⟩)).1.1 "verdict" =
       some (generate_verdict (.netError "boom") (appendMsg ⟨[], 4, 5, 9⟩ "user1" "last").messages)) :=
  ⟨oracle_failure_degraded.1 404 "nf" [] (by decide),
   oracle_failure_degraded.2.1 "boom" [],
   oracle_failure_degraded.2.2 [("x", ⟨[], 4, 5, 9⟩)] "x" ⟨[], 4, 5, 9⟩ "f"
     (.netError "boom") "user1" "last" rfl (by decide) (Or.inl rfl) (by decide) rfl
     (fun _ => by decide) (fun hh => absurd hh (by decide))⟩

/-- Every result of the inner verdict post-processing is a two-field dict
with the compromise field first. -/
theorem verdict_from_contentE_shape (content : String) (v : PyVal)
    (h : verdict_from_contentE content = .ok v) :
    ∃ c sv, v = PyVal.dict [("compromise", c), ("summary", sv)] := by
  unfold verdict_from_contentE at h
  simp only [jsonDecodeFallback, fixedFallbackResult] at h
  repeat' split at h
  all_goals first
    | (cases h; exact ⟨_, _, rfl⟩)
    | simp at h

/-- C3 (amended): the extraction pipeline is total and always returns a dict
carrying both a compromise and a summary field; the field values are not in
general non-empty strings, since values parsed from the oracle text pass
through `dict.get` unchecked. -/
theorem extract_total_both_fields (content : String) :
    ∃ c sv, verdict_from_content content = .dict [("compromise", c), ("summary", sv)] := by
  unfold verdict_from_content
  split
  · next v heq => exact verdict_from_contentE_shape content v heq
  · exact ⟨_, _, rfl⟩

/-- C3 counterexample: on an oracle text whose JSON object carries an empty
summary string, the extractor returns that empty string as the summary
field, refuting the claim that both fields are always non-empty strings. -/
theorem extract_nonempty_counterexample :
    dictGet (verdict_from_content "\x7b\"summary\": \"\", \"compromise\": \"x\"\x7d") "summary" =
      some (.str "") ∧
    ("" : String).length = 0 :=
  ⟨rfl, rfl⟩

/-- C4 (amended): when the brace-span parse fails, or when no span exists
and the literal parse fails, the result carries the fallback texts of
`extract_json` (Error parsing response.); the fixed fallback texts named by
the claim (Failed to generate proper verdict format.) appear exactly when a
parse succeeds with an object lacking the summary or the compromise field. -/
theorem extract_fallback_paths (text : String) :
    (∀ span, braceSpan (strippedOf text) = some span →
      parseJsonList (normalizeNl span) = none →
      verdict_from_content text =
        .dict [("compromise", .str "Could not extract valid JSON from the model response."),
               ("summary", .str "Error parsing response.")]) ∧
    (braceSpan (strippedOf text) = none →
      pyLiteralEvalList (strippedOf text) = none →
      verdict_from_content text =
        .dict [("compromise", .str "Could not extract valid JSON from the model response."),
               ("summary", .str "Error parsing response.")]) ∧
    (∀ kvs, extract_json text = .dict kvs →
      (dictLookup kvs "summary" = none ∨ dictLookup kvs "compromise" = none) →
      verdict_from_content text =
        .dict [("compromise", .str "Please try again with clearer negotiation points."),
               ("summary", .str "Failed to generate proper verdict format.")]) := by
  refine ⟨?_, ?_, ?_⟩
  · intro span hspan hparse
    have hE : extract_json text = extractJsonFallback := by
      simp only [extract_json, hspan, hparse]
    simp [verdict_from_content, verdict_from_contentE, hE, extractJsonFallback,
          pyContainsStr, dictLookup, pyGetAttr]
  · intro hspan hlit
    have hE : extract_json text = extractJsonFallback := by
      simp only [extract_json, hspan, hlit]
    simp [verdict_from_content, verdict_from_contentE, hE, extractJsonFallback,
          pyContainsStr, dictLookup, pyGetAttr]
  · intro kvs hE hlack
    rcases hlack with hlack | hlack
    · simp [verdict_from_content, verdict_from_contentE, hE, pyContainsStr, hlack,
            fixedFallbackResult]
    · cases hsum : dictLookup kvs "summary" with
      | none =>
          simp [verdict_from_content, verdict_from_contentE, hE, pyContainsStr, hsum,
                fixedFallbackResult]
      | some w =>
          simp [verdict_from_content, verdict_from_contentE, hE, pyContainsStr, hsum,
                hlack, fixedFallbackResult]

/-- C4 counterexample: on the text hello both parses fail, yet the result is
the internal fallback of `extract_json`, not the fixed fallback named by the
claim: its summary field differs from the claimed text. -/
theorem fallback_mismatch_counterexample :
    braceSpan (strippedOf "hello") = none ∧
    pyLiteralEvalList (strippedOf "hello") = none ∧
    verdict_from_content "hello" =
      .dict [("compromise", .str "Could not extract valid JSON from the model response."),
             ("summary", .str "Error parsing response.")] ∧
    dictGet (verdict_from_content "hello") "summary" ≠
      some (.str "Failed to generate proper verdict format.") := by
  refine ⟨rfl, rfl, rfl, ?_⟩
  intro h
  have h2 : PyVal.str "Error parsing response." =
      PyVal.str "Failed to generate proper verdict format." := Option.some.inj h
  have h3 : "Error parsing response." = "Failed to generate proper verdict format." := by
    injection h2
  exact absurd h3 (by decide)

/-- Witness for C4: the literal-failure path at hello, and the
missing-field path at an object without the two fields. -/
theorem extract_fallback_paths_witness :
    verdict_from_content "hello" =
      .dict [("compromise", .str "Could not extract valid JSON from the model response."),
             ("summary", .str "Error parsing response.")] ∧
    verdict_from_content "\x7b\"a\": 1\x7d" =
      .dict [("compromise", .str "Please try again with clearer negotiation points."),
             ("summary", .str "Failed to generate proper verdict format.")] :=
  ⟨(extract_fallback_paths "hello").2.1 rfl rfl,
   (extract_fallback_paths "\x7b\"a\": 1\x7d").2.2 [("a", .int 1)] rfl (Or.inl rfl)⟩

/-- Characters that can sit in a JSON string field without escaping, and do
not interact with the fence stripping: printable, not the double quote, not
the backslash, not the backtick. -/
def jsonSafeChar (c : Char) : Prop :=
  32 ≤ c.toNat ∧ ¬ c = Char.ofNat 34 ∧ ¬ c = Char.ofNat 92 ∧ ¬ c = tick

/-- A string all of whose characters are `jsonSafeChar`. -/
def jsonSafe (s : String) : Prop := ∀ c ∈ s.toList, jsonSafeChar c

instance (c : Char) : Decidable (jsonSafeChar c) := by
  unfold jsonSafeChar
  infer_instance

instance (s : String) : Decidable (jsonSafe s) := by
  unfold jsonSafe
  infer_instance

/-- Surrounding prose that cannot disturb the extraction: no braces and no
backticks. -/
def proseSafe (s : String) : Prop :=
  ∀ c ∈ s.toList, ¬ c = lbrace ∧ ¬ c = rbrace ∧ ¬ c = tick

instance (s : String) : Decidable (proseSafe s) := by
  unfold proseSafe
  infer_instance

/-- The serialized two-field verdict object of the round-trip claim. -/
def objString (S C : String) : String :=
  "\x7b\"summary\":\"" ++ S ++ "\",\"compromise\":\"" ++ C ++ "\"\x7d"

theorem stripGo_append_tickFree (a : List Char) (r : List Char)
    (h : ∀ c ∈ a, ¬ c = tick) : stripGo 0 (a ++ r) = a ++ stripGo 0 r := by
  induction a with
  | nil => rfl
  | cons c a ih =>
      have hc : ¬ c = tick := (h c (List.mem_cons_self c a))
      have ih2 := ih (fun x hx => h x (List.mem_cons_of_mem _ hx))
      simp [stripGo, hc, ih2]

theorem stripGo_tickFree (a : List Char) (h : ∀ c ∈ a, ¬ c = tick) :
    stripGo 0 a = a := by
  have := stripGo_append_tickFree a [] h
  simpa [stripGo] using this

theorem dropWhile_append_all (q : Char → Bool) (a r : List Char)
    (h : ∀ x ∈ a, q x = true) : List.dropWhile q (a ++ r) = List.dropWhile q r := by
  induction a with
  | nil => rfl
  | cons c a ih =>
      have hc := h c (List.mem_cons_self c a)
      simp [List.dropWhile, hc, ih (fun x hx => h x (List.mem_cons_of_mem _ hx))]

theorem dropWhile_stop_decomp (q : Char → Bool) (a : List Char) (c : Char) (t : List Char)
    (hc : q c = false) :
    ∃ a2, List.dropWhile q (a ++ c :: t) = a2 ++ c :: t ∧ ∀ x ∈ a2, x ∈ a := by
  induction a with
  | nil => exact ⟨[], by simp [List.dropWhile, hc], by simp⟩
  | cons d a ih =>
      by_cases hd : q d = true
      · obtain ⟨a2, h1, h2⟩ := ih
        refine ⟨a2, ?_, fun x hx => List.mem_cons_of_mem _ (h2 x hx)⟩
        simpa [List.dropWhile, hd] using h1
      · refine ⟨d :: a, ?_, fun x hx => hx⟩
        have hd2 : q d = false := by revert hd; cases q d <;> simp
        simp [List.dropWhile, hd2]

theorem pyStrip_decomp (a b inner : List Char) :
    ∃ a2 b2, pyStrip (a ++ (lbrace :: inner ++ [rbrace]) ++ b) =
      a2 ++ (lbrace :: inner ++ [rbrace]) ++ b2 ∧
      (∀ x ∈ a2, x ∈ a) ∧ (∀ x ∈ b2, x ∈ b) := by
  have hlb : pyWs lbrace = false := by decide
  have hrb : pyWs rbrace = false := by decide
  obtain ⟨a2, h1, h2⟩ :=
    dropWhile_stop_decomp pyWs a lbrace (inner ++ [rbrace] ++ b) hlb
  have h1b : List.dropWhile pyWs (a ++ (lbrace :: inner ++ [rbrace]) ++ b) =
      a2 ++ (lbrace :: inner ++ [rbrace]) ++ b := by
    simpa [List.append_assoc] using h1
  obtain ⟨b2, h3, h4⟩ :=
    dropWhile_stop_decomp pyWs b.reverse rbrace ((lbrace :: inner).reverse ++ a2.reverse) hrb
  refine ⟨a2, b2.reverse, ?_, h2, fun x hx => by
    have := h4 x (by simpa using hx)
    simpa using this⟩
  unfold pyStrip
  rw [h1b]
  have hrev : (a2 ++ (lbrace :: inner ++ [rbrace]) ++ b).reverse =
      b.reverse ++ rbrace :: ((lbrace :: inner).reverse ++ a2.reverse) := by
    simp
  rw [hrev, h3]
  simp

theorem braceSpan_at (a b inner : List Char)
    (ha : ∀ x ∈ a, ¬ x = lbrace) (hb : ∀ x ∈ b, ¬ x = rbrace) :
    braceSpan (a ++ (lbrace :: inner ++ [rbrace]) ++ b) =
      some (lbrace :: inner ++ [rbrace]) := by
  unfold braceSpan
  have h1 : List.dropWhile (fun c => ¬ c = lbrace)
      (a ++ (lbrace :: inner ++ [rbrace]) ++ b) =
      lbrace :: (inner ++ [rbrace] ++ b) := by
    rw [List.append_assoc]
    rw [dropWhile_append_all _ a _ (fun x hx => by simpa using ha x hx)]
    simp [List.dropWhile]
  rw [h1]
  have h2 : List.dropWhile (fun c => ¬ c = rbrace)
      ((lbrace :: (inner ++ [rbrace] ++ b)).reverse) =
      rbrace :: (inner.reverse ++ [lbrace]) := by
    have hrev : (lbrace :: (inner ++ [rbrace] ++ b)).reverse =
        b.reverse ++ rbrace :: (inner.reverse ++ [lbrace]) := by
      simp
    rw [hrev]
    rw [dropWhile_append_all _ b.reverse _
      (fun x hx => by simpa using hb x (by simpa using hx))]
    simp [List.dropWhile]
  simp only [h2]
  simp

theorem normalizeNl_self (cs : List Char)
    (h : ∀ c ∈ cs, ¬ c = Char.ofNat 10 ∧ ¬ c = Char.ofNat 13) :
    normalizeNl cs = cs := by
  unfold normalizeNl
  induction cs with
  | nil => rfl
  | cons c cs ih =>
      have hc := h c (List.mem_cons_self c cs)
      have ih2 := ih (fun x hx => h x (List.mem_cons_of_mem _ hx))
      simp only [List.map_cons, List.filter_cons]
      rw [if_neg hc.1]
      simp only [decide_not]
      rw [if_pos (by simpa using hc.2)]
      rw [show (cs.map (fun c => if c = Char.ofNat 10 then ' ' else c)).filter
            (fun c => !decide (c = Char.ofNat 13)) = cs from by
        simpa [decide_not] using ih2]

theorem goStr_safe (cs : List Char)
    (h : ∀ c ∈ cs, 32 ≤ c.toNat ∧ ¬ c = Char.ofNat 34 ∧ ¬ c = Char.ofNat 92) :
    ∀ acc rest, goStr (cs ++ Char.ofNat 34 :: rest) acc = some (acc.reverse ++ cs, rest) := by
  induction cs with
  | nil =>
      intro acc rest
      rw [List.nil_append, goStr.eq_def]
      simp
  | cons c cs ih =>
      intro acc rest
      obtain ⟨h32, hq, hbs⟩ := h c (List.mem_cons_self c cs)
      have hlt : ¬ c.toNat < 32 := by omega
      have ih2 := ih (fun x hx => h x (List.mem_cons_of_mem _ hx)) (c :: acc) rest
      rw [List.cons_append, goStr.eq_def]
      simp only []
      rw [if_neg hq, if_neg hbs, if_neg hlt, ih2]
      simp

theorem mk_toList (s : String) : String.mk s.toList = s := by
  cases s
  rfl

theorem parseStringBody_safe (S : String) (hS : jsonSafe S) (rest : List Char) :
    parseStringBody (S.toList ++ Char.ofNat 34 :: rest) = some (S, rest) := by
  unfold parseStringBody
  rw [goStr_safe S.toList
    (fun c hc => ⟨(hS c hc).1, (hS c hc).2.1, (hS c hc).2.2.1⟩) [] rest]
  simp [mk_toList]

theorem parseStep_strVal (f : Nat) (S : String) (hS : jsonSafe S) (rest : List Char) :
    parseStep (f + 1) PMode.val (Char.ofNat 34 :: (S.toList ++ Char.ofNat 34 :: rest)) =
      some (.str S, rest) := by
  show parseStep (Nat.succ f) PMode.val _ = _
  rw [parseStep.eq_def]
  simp only []
  rw [show skipWs (Char.ofNat 34 :: (S.toList ++ Char.ofNat 34 :: rest)) =
    Char.ofNat 34 :: (S.toList ++ Char.ofNat 34 :: rest) from rfl]
  simp only []
  rw [if_neg (by decide : ¬ (Char.ofNat 34 = lbrace)),
      if_neg (by decide : ¬ (Char.ofNat 34 = '['))]
  simp only [if_true]
  rw [parseStringBody_safe S hS rest]

theorem objString_toList (S C : String) : (objString S C).toList =
    lbrace :: Char.ofNat 34 :: ("summary".toList ++ Char.ofNat 34 :: ':' :: Char.ofNat 34 ::
      (S.toList ++ Char.ofNat 34 :: ',' :: Char.ofNat 34 ::
        ("compromise".toList ++ Char.ofNat 34 :: ':' :: Char.ofNat 34 ::
          (C.toList ++ Char.ofNat 34 :: rbrace :: [])))) := by
  simp [objString, String.toList]
  exact ⟨by decide, by decide⟩

theorem parseStep_members_step (f : Nat) (acc : List (String × PyVal)) (K V : String)
    (hK : jsonSafe K) (hV : jsonSafe V) (rest : List Char) :
    parseStep (f + 2) (PMode.members acc)
      (Char.ofNat 34 :: (K.toList ++ Char.ofNat 34 :: ':' :: Char.ofNat 34 ::
        (V.toList ++ Char.ofNat 34 :: rest))) =
      (match skipWs rest with
       | ',' :: r4 => parseStep (f + 1) (PMode.members (dictInsert acc K (.str V))) (skipWs r4)
       | c5 :: r5 => if c5 = rbrace then some (.dict (dictInsert acc K (.str V)), r5) else none
       | [] => none) := by
  show parseStep (Nat.succ (f + 1)) (PMode.members acc) _ = _
  rw [parseStep.eq_def]
  simp only []
  rw [parseStringBody_safe K hK (':' :: Char.ofNat 34 :: (V.toList ++ Char.ofNat 34 :: rest))]
  simp only []
  rw [show skipWs (':' :: Char.ofNat 34 :: (V.toList ++ Char.ofNat 34 :: rest)) =
    ':' :: Char.ofNat 34 :: (V.toList ++ Char.ofNat 34 :: rest) from rfl]
  simp only []
  rw [parseStep_strVal f V hV rest]
  simp only [if_true]

theorem parseStep_members_close (f : Nat) (acc : List (String × PyVal)) (K V : String)
    (hK : jsonSafe K) (hV : jsonSafe V) (r5 : List Char) :
    parseStep (f + 2) (PMode.members acc)
      (Char.ofNat 34 :: (K.toList ++ Char.ofNat 34 :: ':' :: Char.ofNat 34 ::
        (V.toList ++ Char.ofNat 34 :: rbrace :: r5))) =
      some (.dict (dictInsert acc K (.str V)), r5) := by
  rw [parseStep_members_step f acc K V hK hV (rbrace :: r5)]
  rw [show skipWs (rbrace :: r5) = rbrace :: r5 from rfl]
  split
  · next r4 heq =>
      injection heq with h1 h2
      exact absurd h1 (by decide)
  · next c5 r5b hne heq =>
      injection heq with h1 h2
      subst h2
      rw [if_pos h1.symm]
  · next heq => exact absurd heq (by simp)

theorem parseStep_members_cont (f : Nat) (acc : List (String × PyVal)) (K V : String)
    (hK : jsonSafe K) (hV : jsonSafe V) (X : List Char) :
    parseStep (f + 2) (PMode.members acc)
      (Char.ofNat 34 :: (K.toList ++ Char.ofNat 34 :: ':' :: Char.ofNat 34 ::
        (V.toList ++ Char.ofNat 34 :: ',' :: Char.ofNat 34 :: X))) =
      parseStep (f + 1) (PMode.members (dictInsert acc K (.str V))) (Char.ofNat 34 :: X) := by
  rw [parseStep_members_step f acc K V hK hV (',' :: Char.ofNat 34 :: X)]
  rw [show skipWs (',' :: Char.ofNat 34 :: X) = ',' :: Char.ofNat 34 :: X from rfl]
  simp only []
  rw [show skipWs (Char.ofNat 34 :: X) = Char.ofNat 34 :: X from rfl]

theorem parseStep_objVal (f : Nat) (S C : String) (hS : jsonSafe S) (hC : jsonSafe C) :
    parseStep (f + 4) PMode.val ((objString S C).toList) =
      some (.dict [("summary", .str S), ("compromise", .str C)], []) := by
  rw [objString_toList]
  show parseStep (Nat.succ (f + 3)) PMode.val _ = _
  rw [parseStep.eq_def]
  simp only []
  rw [show skipWs (lbrace :: Char.ofNat 34 :: ("summary".toList ++ Char.ofNat 34 :: ':' ::
      Char.ofNat 34 :: (S.toList ++ Char.ofNat 34 :: ',' :: Char.ofNat 34 ::
        ("compromise".toList ++ Char.ofNat 34 :: ':' :: Char.ofNat 34 ::
          (C.toList ++ Char.ofNat 34 :: rbrace :: []))))) = lbrace :: Char.ofNat 34 ::
      ("summary".toList ++ Char.ofNat 34 :: ':' :: Char.ofNat 34 ::
        (S.toList ++ Char.ofNat 34 :: ',' :: Char.ofNat 34 ::
          ("compromise".toList ++ Char.ofNat 34 :: ':' :: Char.ofNat 34 ::
            (C.toList ++ Char.ofNat 34 :: rbrace :: [])))) from rfl]
  simp only [if_true]
  rw [show skipWs (Char.ofNat 34 :: ("summary".toList ++ Char.ofNat 34 :: ':' :: Char.ofNat 34 ::
      (S.toList ++ Char.ofNat 34 :: ',' :: Char.ofNat 34 ::
        ("compromise".toList ++ Char.ofNat 34 :: ':' :: Char.ofNat 34 ::
          (C.toList ++ Char.ofNat 34 :: rbrace :: []))))) = Char.ofNat 34 ::
      ("summary".toList ++ Char.ofNat 34 :: ':' :: Char.ofNat 34 ::
        (S.toList ++ Char.ofNat 34 :: ',' :: Char.ofNat 34 ::
          ("compromise".toList ++ Char.ofNat 34 :: ':' :: Char.ofNat 34 ::
            (C.toList ++ Char.ofNat 34 :: rbrace :: [])))) from rfl]
  simp only []
  rw [if_neg (by decide : ¬ (Char.ofNat 34 = rbrace))]
  rw [show f + 3 = (f + 1) + 2 from rfl,
      parseStep_members_cont (f + 1) [] "summary" S (by decide) hS
        ("compromise".toList ++ Char.ofNat 34 :: ':' :: Char.ofNat 34 ::
          (C.toList ++ Char.ofNat 34 :: rbrace :: []))]
  rw [show (f : Nat) + 1 + 1 = f + 2 from rfl,
      parseStep_members_close f (dictInsert [] "summary" (.str S)) "compromise" C
        (by decide) hC []]
  simp [dictInsert]

theorem parseJsonList_obj (S C : String) (hS : jsonSafe S) (hC : jsonSafe C) :
    parseJsonList ((objString S C).toList) =
      some (.dict [("summary", .str S), ("compromise", .str C)]) := by
  unfold parseJsonList
  have h3 : 3 ≤ (objString S C).toList.length := by
    rw [objString_toList]
    simp
  rw [show (objString S C).toList.length + 1 =
      ((objString S C).toList.length - 3) + 4 from by omega]
  rw [parseStep_objVal _ S C hS hC]
  simp [skipWs]

theorem ticks_toList : ("```" : String).toList = [tick, tick, tick] := by decide

theorem stripGo_ticks_takeJson (R : List Char) (hR : R.take 4 = ['j', 's', 'o', 'n']) :
    stripGo 0 (("```" : String).toList ++ R) = stripGo 0 (R.drop 4) := by
  rw [ticks_toList]
  rw [show ([tick, tick, tick] : List Char) ++ R = tick :: tick :: tick :: R from rfl]
  rw [stripGo.eq_def]
  simp only []
  rw [if_pos ⟨trivial, rfl⟩]
  rw [show ((tick :: tick :: R : List Char).drop 2) = R from rfl]
  rw [if_pos hR]
  rw [show stripGo 6 (tick :: tick :: R) = stripGo 4 R from rfl]
  conv_lhs => rw [show R = R.take 4 ++ R.drop 4 from (List.take_append_drop 4 R).symm, hR]
  rfl

theorem stripGo_ticks_notJson (R : List Char) (hR : ¬ R.take 4 = ['j', 's', 'o', 'n']) :
    stripGo 0 (("```" : String).toList ++ R) = stripGo 0 R := by
  rw [ticks_toList]
  rw [show ([tick, tick, tick] : List Char) ++ R = tick :: tick :: tick :: R from rfl]
  rw [stripGo.eq_def]
  simp only []
  rw [if_pos ⟨trivial, rfl⟩]
  rw [show ((tick :: tick :: R : List Char).drop 2) = R from rfl]
  rw [if_neg hR]
  rfl

theorem stripGo_ticksJson (R : List Char) :
    stripGo 0 (("```json" : String).toList ++ R) = stripGo 0 R := by
  have h : ("```json" : String).toList ++ R = ("```" : String).toList ++ ('j' :: 's' :: 'o' :: 'n' :: R) := by
    rw [ticks_toList]
    rw [show ("```json" : String).toList = [tick, tick, tick, 'j', 's', 'o', 'n'] from by decide]
    rfl
  rw [h, stripGo_ticks_takeJson ('j' :: 's' :: 'o' :: 'n' :: R) rfl]
  rfl

theorem objString_seg (S C : String) : (objString S C).toList =
    ("\x7b\"summary\":\"" : String).toList ++ S.toList ++
    ("\",\"compromise\":\"" : String).toList ++ C.toList ++
    ("\"\x7d" : String).toList := by
  simp [objString, String.toList]

theorem objString_safe (S C : String) (hS : jsonSafe S) (hC : jsonSafe C) :
    ∀ c ∈ (objString S C).toList,
      ¬ c = tick ∧ ¬ c = Char.ofNat 10 ∧ ¬ c = Char.ofNat 13 := by
  intro c hc
  rw [objString_seg] at hc
  simp only [List.mem_append] at hc
  have hsafe : ∀ s2 : String, jsonSafe s2 → c ∈ s2.toList →
      ¬ c = tick ∧ ¬ c = Char.ofNat 10 ∧ ¬ c = Char.ofNat 13 := by
    intro s2 hs2 h
    refine ⟨(hs2 c h).2.2.2, fun heq => ?_, fun heq => ?_⟩
    · have h32 := (hs2 c h).1
      rw [heq] at h32
      exact absurd h32 (by decide)
    · have h32 := (hs2 c h).1
      rw [heq] at h32
      exact absurd h32 (by decide)
  rcases hc with ((((h | h) | h) | h) | h)
  · exact (by decide : ∀ x ∈ ("\x7b\"summary\":\"" : String).toList,
      ¬ x = tick ∧ ¬ x = Char.ofNat 10 ∧ ¬ x = Char.ofNat 13) c h
  · exact hsafe S hS h
  · exact (by decide : ∀ x ∈ ("\",\"compromise\":\"" : String).toList,
      ¬ x = tick ∧ ¬ x = Char.ofNat 10 ∧ ¬ x = Char.ofNat 13) c h
  · exact hsafe C hC h
  · exact (by decide : ∀ x ∈ ("\"\x7d" : String).toList,
      ¬ x = tick ∧ ¬ x = Char.ofNat 10 ∧ ¬ x = Char.ofNat 13) c h

theorem stripTail_shape (f2 suf : String) (hsuf : proseSafe suf)
    (hf2 : f2 = "" ∨ f2 = "\n```" ∨ f2 = "```") :
    ∃ post, stripGo 0 (f2.toList ++ suf.toList) = post ∧
      ∀ x ∈ post, ¬ x = lbrace ∧ ¬ x = rbrace := by
  have hsuftick : ∀ c ∈ suf.toList, ¬ c = tick := fun c hc => (hsuf c hc).2.2
  have hsufbrace : ∀ c ∈ suf.toList, ¬ c = lbrace ∧ ¬ c = rbrace :=
    fun c hc => ⟨(hsuf c hc).1, (hsuf c hc).2.1⟩
  have hdropbrace : ∀ x ∈ suf.toList.drop 4, ¬ x = lbrace ∧ ¬ x = rbrace :=
    fun x hx => hsufbrace x (List.drop_subset 4 suf.toList hx)
  have hdroptick : ∀ x ∈ suf.toList.drop 4, ¬ x = tick :=
    fun x hx => hsuftick x (List.drop_subset 4 suf.toList hx)
  have hcase : ∀ R : List Char, R = suf.toList →
      ∃ post, stripGo 0 (("```" : String).toList ++ R) = post ∧
        ∀ x ∈ post, ¬ x = lbrace ∧ ¬ x = rbrace := by
    intro R hR
    subst hR
    by_cases h4 : suf.toList.take 4 = ['j', 's', 'o', 'n']
    · exact ⟨suf.toList.drop 4,
        by rw [stripGo_ticks_takeJson _ h4, stripGo_tickFree _ hdroptick], hdropbrace⟩
    · exact ⟨suf.toList,
        by rw [stripGo_ticks_notJson _ h4, stripGo_tickFree _ hsuftick], hsufbrace⟩
  rcases hf2 with rfl | rfl | rfl
  · exact ⟨suf.toList, by
      rw [show ("" : String).toList = [] from rfl, List.nil_append,
          stripGo_tickFree _ hsuftick], hsufbrace⟩
  · have hsplit : ("\n```" : String).toList ++ suf.toList =
        Char.ofNat 10 :: (("```" : String).toList ++ suf.toList) := by
      rw [show ("\n```" : String).toList = Char.ofNat 10 :: ("```" : String).toList from by decide]
      rfl
    obtain ⟨post, hpost, hbr⟩ := hcase suf.toList rfl
    refine ⟨Char.ofNat 10 :: post, ?_, ?_⟩
    · rw [hsplit]
      rw [show (Char.ofNat 10 :: (("```" : String).toList ++ suf.toList) : List Char) =
        [Char.ofNat 10] ++ (("```" : String).toList ++ suf.toList) from rfl]
      rw [stripGo_append_tickFree [Char.ofNat 10] _ (by decide), hpost]
      rfl
    · intro x hx
      rcases List.mem_cons.mp hx with h | h
      · subst h
        exact ⟨by decide, by decide⟩
      · exact hbr x h
  · exact hcase suf.toList rfl

theorem stripMid_shape (f1 f2 suf S C : String)
    (hsuf : proseSafe suf) (hS : jsonSafe S) (hC : jsonSafe C)
    (hf1 : f1 = "" ∨ f1 = "```json\n" ∨ f1 = "```json" ∨ f1 = "```\n" ∨ f1 = "```")
    (hf2 : f2 = "" ∨ f2 = "\n```" ∨ f2 = "```") :
    ∃ pre2 post,
      stripGo 0 (f1.toList ++ ((objString S C).toList ++ (f2.toList ++ suf.toList))) =
        pre2 ++ ((objString S C).toList ++ post) ∧
      (∀ x ∈ pre2, ¬ x = lbrace ∧ ¬ x = rbrace) ∧
      (∀ x ∈ post, ¬ x = lbrace ∧ ¬ x = rbrace) := by
  obtain ⟨post, hpost, hpostbr⟩ := stripTail_shape f2 suf hsuf hf2
  have hobjtick : ∀ c ∈ (objString S C).toList, ¬ c = tick :=
    fun c hc => (objString_safe S C hS hC c hc).1
  have hpass : stripGo 0 ((objString S C).toList ++ (f2.toList ++ suf.toList)) =
      (objString S C).toList ++ post := by
    rw [stripGo_append_tickFree _ _ hobjtick, hpost]
  have hheadobj : ¬ ((objString S C).toList ++ (f2.toList ++ suf.toList)).take 4 =
      ['j', 's', 'o', 'n'] := by
    rw [objString_toList, List.cons_append]
    intro h
    rw [show ∀ X : List Char, List.take 4 (lbrace :: X) = lbrace :: List.take 3 X
      from fun X => rfl] at h
    exact absurd (List.cons.inj h).1 (by decide)
  rcases hf1 with rfl | rfl | rfl | rfl | rfl
  · exact ⟨[], post, by
      rw [show ("" : String).toList = [] from rfl, List.nil_append, hpass]
      rfl, by simp, hpostbr⟩
  · refine ⟨[Char.ofNat 10], post, ?_, by decide, hpostbr⟩
    rw [show ("```json\n" : String).toList ++ ((objString S C).toList ++ (f2.toList ++ suf.toList)) =
      ("```json" : String).toList ++ (Char.ofNat 10 ::
        ((objString S C).toList ++ (f2.toList ++ suf.toList))) from by
      rw [show ("```json\n" : String).toList =
        ("```json" : String).toList ++ [Char.ofNat 10] from by decide]
      simp]
    rw [stripGo_ticksJson]
    rw [show (Char.ofNat 10 :: ((objString S C).toList ++ (f2.toList ++ suf.toList)) : List Char) =
      [Char.ofNat 10] ++ ((objString S C).toList ++ (f2.toList ++ suf.toList)) from rfl]
    rw [stripGo_append_tickFree [Char.ofNat 10] _ (by decide), hpass]
  · exact ⟨[], post, by
      rw [stripGo_ticksJson, hpass]
      rfl, by simp, hpostbr⟩
  · refine ⟨[Char.ofNat 10], post, ?_, by decide, hpostbr⟩
    rw [show ("```\n" : String).toList ++ ((objString S C).toList ++ (f2.toList ++ suf.toList)) =
      ("```" : String).toList ++ (Char.ofNat 10 ::
        ((objString S C).toList ++ (f2.toList ++ suf.toList))) from by
      rw [show ("```\n" : String).toList =
        ("```" : String).toList ++ [Char.ofNat 10] from by decide]
      simp]
    rw [stripGo_ticks_notJson _ (by
      intro h
      rw [show ∀ X : List Char, List.take 4 (Char.ofNat 10 :: X) =
        Char.ofNat 10 :: List.take 3 X from fun X => rfl] at h
      exact absurd (List.cons.inj h).1 (by decide))]
    rw [show (Char.ofNat 10 :: ((objString S C).toList ++ (f2.toList ++ suf.toList)) : List Char) =
      [Char.ofNat 10] ++ ((objString S C).toList ++ (f2.toList ++ suf.toList)) from rfl]
    rw [stripGo_append_tickFree [Char.ofNat 10] _ (by decide), hpass]
  · exact ⟨[], post, by
      rw [stripGo_ticks_notJson _ hheadobj, hpass]
      rfl, by simp, hpostbr⟩

/-- The interior of the serialized verdict object, between its braces. -/
def objInner (S C : String) : List Char :=
  Char.ofNat 34 :: ("summary".toList ++ Char.ofNat 34 :: ':' :: Char.ofNat 34 ::
    (S.toList ++ Char.ofNat 34 :: ',' :: Char.ofNat 34 ::
      ("compromise".toList ++ Char.ofNat 34 :: ':' :: Char.ofNat 34 ::
        (C.toList ++ [Char.ofNat 34]))))

theorem objString_decomp (S C : String) :
    (objString S C).toList = lbrace :: objInner S C ++ [rbrace] := by
  rw [objString_toList]
  simp [objInner]

theorem extract_json_wrapped (p f1 f2 suf S C : String)
    (hp : proseSafe p) (hsuf : proseSafe suf) (hS : jsonSafe S) (hC : jsonSafe C)
    (hf1 : f1 = "" ∨ f1 = "```json\n" ∨ f1 = "```json" ∨ f1 = "```\n" ∨ f1 = "```")
    (hf2 : f2 = "" ∨ f2 = "\n```" ∨ f2 = "```") :
    extract_json (p ++ f1 ++ objString S C ++ f2 ++ suf) =
      .dict [("summary", .str S), ("compromise", .str C)] := by
  have htl : (p ++ f1 ++ objString S C ++ f2 ++ suf).toList =
      p.toList ++ (f1.toList ++ ((objString S C).toList ++ (f2.toList ++ suf.toList))) := by
    simp [String.toList]
  obtain ⟨pre2, post, hmid, hpre2, hpost⟩ := stripMid_shape f1 f2 suf S C hsuf hS hC hf1 hf2
  have hstrip : stripTicksAux (p ++ f1 ++ objString S C ++ f2 ++ suf).toList =
      (p.toList ++ pre2) ++ ((objString S C).toList ++ post) := by
    unfold stripTicksAux
    rw [htl, stripGo_append_tickFree p.toList _ (fun c hc => (hp c hc).2.2), hmid]
    simp [List.append_assoc]
  obtain ⟨a2, b2, hps, ha2, hb2⟩ := pyStrip_decomp (p.toList ++ pre2) post (objInner S C)
  have hstripped : strippedOf (p ++ f1 ++ objString S C ++ f2 ++ suf) =
      a2 ++ (lbrace :: objInner S C ++ [rbrace]) ++ b2 := by
    unfold strippedOf
    rw [hstrip, objString_decomp]
    rw [show (p.toList ++ pre2) ++ ((lbrace :: objInner S C ++ [rbrace]) ++ post) =
      (p.toList ++ pre2) ++ (lbrace :: objInner S C ++ [rbrace]) ++ post from by
      simp [List.append_assoc]]
    exact hps
  have ha2brace : ∀ x ∈ a2, ¬ x = lbrace := by
    intro x hx
    rcases List.mem_append.mp (ha2 x hx) with h | h
    · exact (hp x h).1
    · exact (hpre2 x h).1
  have hb2brace : ∀ x ∈ b2, ¬ x = rbrace := by
    intro x hx
    exact (hpost x (hb2 x hx)).2
  have hspan : braceSpan (strippedOf (p ++ f1 ++ objString S C ++ f2 ++ suf)) =
      some (lbrace :: objInner S C ++ [rbrace]) := by
    rw [hstripped]
    exact braceSpan_at a2 b2 (objInner S C) ha2brace hb2brace
  have hnn : normalizeNl (lbrace :: objInner S C ++ [rbrace]) =
      lbrace :: objInner S C ++ [rbrace] := by
    rw [← objString_decomp]
    exact normalizeNl_self _ (fun c hc => (objString_safe S C hS hC c hc).2)
  have hparse : parseJsonList (normalizeNl (lbrace :: objInner S C ++ [rbrace])) =
      some (.dict [("summary", .str S), ("compromise", .str C)]) := by
    rw [hnn, ← objString_decomp]
    exact parseJsonList_obj S C hS hC
  simp only [extract_json, hspan, hparse]

/-- C5 (amended): raw oracle text that is exactly the serialized verdict
object, possibly wrapped in markdown code fences and surrounded by prose,
round-trips through extraction to the verdict with the same two field
values, provided the prose carries no curly braces and no backticks and the
field values need no JSON escaping; prose containing further braces can
defeat the greedy brace-span extraction. -/
theorem roundtrip_extraction (p f1 f2 suf S C : String)
    (hp : proseSafe p) (hsuf : proseSafe suf) (hS : jsonSafe S) (hC : jsonSafe C)
    (hf1 : f1 ∈ (["", "```json\n", "```json", "```\n", "```"] : List String))
    (hf2 : f2 ∈ (["", "\n```", "```"] : List String)) :
    verdict_from_content (p ++ f1 ++ objString S C ++ f2 ++ suf) =
      .dict [("compromise", .str C), ("summary", .str S)] := by
  have hf1d : f1 = "" ∨ f1 = "```json\n" ∨ f1 = "```json" ∨ f1 = "```\n" ∨ f1 = "```" := by
    simpa using hf1
  have hf2d : f2 = "" ∨ f2 = "\n```" ∨ f2 = "```" := by
    simpa using hf2
  have hE := extract_json_wrapped p f1 f2 suf S C hp hsuf hS hC hf1d hf2d
  simp [verdict_from_content, verdict_from_contentE, hE, pyContainsStr, dictLookup, pyGetAttr]

/-- C5 counterexample: raw text that is exactly the serialized object
surrounded by prose, where the prose contains one further closing brace;
the greedy brace span then fails to parse and extraction returns the
fallback rather than the round-tripped verdict. -/
theorem roundtrip_prose_counterexample :
    ("\x7b\"summary\":\"S\",\"compromise\":\"C\"\x7d extra\x7d" : String) =
      objString "S" "C" ++ " extra\x7d" ∧
    verdict_from_content ("\x7b\"summary\":\"S\",\"compromise\":\"C\"\x7d extra\x7d") =
      .dict [("compromise", .str "Could not extract valid JSON from the model response."),
             ("summary", .str "Error parsing response.")] ∧
    dictGet (verdict_from_content ("\x7b\"summary\":\"S\",\"compromise\":\"C\"\x7d extra\x7d"))
        "summary" ≠ some (.str "S") := by
  refine ⟨rfl, rfl, ?_⟩
  intro h
  have h2 : PyVal.str "Error parsing response." = PyVal.str "S" := Option.some.inj h
  have h3 : "Error parsing response." = "S" := by injection h2
  exact absurd h3 (by decide)

/-- Witness for C5: concrete prose, fences and field values. -/
theorem roundtrip_extraction_witness :
    verdict_from_content ("Here is the verdict: " ++ "```json\n" ++ objString "S" "C" ++
        "\n```" ++ " hope this helps") =
      .dict [("compromise", .str "C"), ("summary", .str "S")] :=
  roundtrip_extraction "Here is the verdict: " "```json\n" "\n```" " hope this helps" "S" "C"
    (by decide) (by decide) (by decide) (by decide) (by decide) (by decide)
